import Mathlib

/-!
Verification of the `mane` find-and-replace tool (Rust) against its
natural-language specification.

Modelling conventions:
* Rust `String`/`&str` values are modelled by Lean `String` (in this Lean
  version a structure wrapping `List Char`); Rust's Unicode case functions
  (`char::is_uppercase`, `char::is_lowercase`, `str::to_uppercase`) are
  modelled by the ASCII `Char.isUpper`/`Char.isLower`/`Char.toUpper`,
  adequate for the ASCII content all claims are about.
* `anyhow::Result<T>` is modelled by `Except String T`; the `?` operator is
  modelled by explicit matches that stop at the first `Except.error`.
* The global atomics `GLOBAL_CASE_ENABLED`, `GLOBAL_RENAME_FILE_ENABLED`
  and `GLOBAL_RENAME_DIR_ENABLED` (args.rs) are read-only for a run and are
  modelled as explicit boolean parameters.
* The filesystem is modelled as a list of entries (path string, directory
  flag, optional UTF-8 content; `none` content on a file means reading it
  as text fails, i.e. a binary file).  Side effects on the filesystem are
  modelled by state passing: a run returns the new filesystem together with
  its `Except` outcome, so mutations made before an abort are preserved.
-/

namespace Mane

/-! ### Rust string primitives -/

/-- Rust `str::contains` on `List Char`: `pat` occurs as a contiguous
substring (an empty pattern always occurs). -/
def rcontainsAux (pat : List Char) : List Char → Bool
  | [] => pat.isEmpty
  | c :: rest => pat.isPrefixOf (c :: rest) || rcontainsAux pat rest

/-- Rust `content.contains(pat)`. -/
def rcontains (s pat : String) : Bool :=
  rcontainsAux pat.data s.data

/-- Fuel-indexed core of Rust `str::replace` for a non-empty pattern:
replaces every non-overlapping occurrence left to right.  The fuel only
bounds the recursion; `fuel = s.length` always suffices because each step
consumes at least one character. -/
def replaceFuel (pat rep : List Char) : Nat → List Char → List Char
  | 0, s => s
  | _ + 1, [] => []
  | fuel + 1, c :: rest =>
    if pat.isPrefixOf (c :: rest) then
      rep ++ replaceFuel pat rep fuel (List.drop pat.length (c :: rest))
    else
      c :: replaceFuel pat rep fuel rest

/-- Rust `s.replace(pat, rep)`: all non-overlapping occurrences are
replaced left to right; an empty pattern matches at every character
boundary (Rust inserts `rep` before every character and at the end). -/
def rreplace (s pat rep : String) : String :=
  if pat.data = [] then
    ⟨rep.data ++ (s.data.map (fun c => c :: rep.data)).flatten⟩
  else
    ⟨replaceFuel pat.data rep.data s.data.length s.data⟩

/-- Rust `s.to_uppercase()` (ASCII model). -/
def toUpperStr (s : String) : String := ⟨s.data.map Char.toUpper⟩

/-- `s.data.drop n`, as a string (used for the path arithmetic of rename). -/
def strDrop (s : String) (n : Nat) : String := ⟨s.data.drop n⟩

/-! ### Path primitives (paths are plain strings with `/` separators) -/

/-- Rust `Path::file_name` (total model): the part after the last `/`. -/
def pathFileName (p : String) : String :=
  ⟨(p.data.reverse.takeWhile (fun c => c ≠ '/')).reverse⟩

/-- Rust `Path::parent` (total model): the part before the last `/`, or
`""` when there is no separator. -/
def pathParent (p : String) : String :=
  ⟨(p.data.reverse.dropWhile (fun c => c ≠ '/')).reverse.dropLast⟩

/-- Rust `Path::join` of a parent and a name (`Path::new("").join(x) = x`). -/
def pathJoin (parent name : String) : String :=
  if parent = "" then name else parent ++ "/" ++ name

/-- Splitter for `Path::components`: splits on `/`, dropping empty pieces. -/
def splitSlashAux : List Char → List Char → List String
  | [], acc => if acc.isEmpty then [] else [⟨acc.reverse⟩]
  | c :: rest, acc =>
    if c = '/' then
      (if acc.isEmpty then [] else [⟨acc.reverse⟩]) ++ splitSlashAux rest []
    else
      splitSlashAux rest (c :: acc)

/-- Rust `Path::components` of a relative path. -/
def pathComponents (p : String) : List String := splitSlashAux p.data []

/-! ### src/case.rs — naming-convention detection and conversion -/

/-- src/case.rs `StringCase`: the recognized naming conventions. -/
inductive StringCase where
  | Pascal
  | Kebab
  | Camel
  | ScreamingSnake
  | Snake
  | Unknown
deriving DecidableEq

/-- Modelled from the spec: the word segmentation of the external
`convert_case` crate (the crate itself is not part of this repository).
Per spec §4.1 a token is re-segmented style-agnostically into words at
camel/Pascal humps (a lowercase letter followed by an uppercase letter)
and at the separators `-` and `_` (which are dropped).  The accumulator
holds the current word reversed; its head is the previous character. -/
def splitWordsAux : List Char → List Char → List (List Char)
  | [], acc => if acc.isEmpty then [] else [acc.reverse]
  | c :: rest, acc =>
    if c = '-' ∨ c = '_' then
      (if acc.isEmpty then [] else [acc.reverse]) ++ splitWordsAux rest []
    else if c.isUpper && (acc.headD ' ').isLower then
      acc.reverse :: splitWordsAux rest [c]
    else
      splitWordsAux rest (c :: acc)

/-- The words of a token (see `splitWordsAux`). -/
def splitWords (s : String) : List String :=
  (splitWordsAux s.data []).map (fun w => ⟨w⟩)

/-- A word in all lowercase. -/
def lowerWord (w : String) : String := ⟨w.data.map Char.toLower⟩

/-- A word in all uppercase. -/
def upperWord (w : String) : String := ⟨w.data.map Char.toUpper⟩

/-- A word capitalized: first character uppercase, the rest lowercase. -/
def capitalWord (w : String) : String :=
  match w.data with
  | [] => ""
  | c :: rest => ⟨Char.toUpper c :: rest.map Char.toLower⟩

/-- Modelled from the spec: the external `convert_case` crate's
`s.to_case(case)` as described in spec §4.1 — re-segment into words and
re-join with the casing and separator rules of the target style.  Its
behaviour on this repository's tokens is pinned by the unit tests in
src/case.rs (see `convert_case_matches_unit_tests`).  The `Unknown` arm is
never used by the source (src/case.rs handles `Unknown` before calling the
crate). -/
def to_case (s : String) (c : StringCase) : String :=
  match c with
  | .Pascal => String.join ((splitWords s).map capitalWord)
  | .Kebab => String.join (((splitWords s).map lowerWord).intersperse "-")
  | .Camel =>
    match splitWords s with
    | [] => ""
    | w :: rest => lowerWord w ++ String.join (rest.map capitalWord)
  | .ScreamingSnake => String.join (((splitWords s).map upperWord).intersperse "_")
  | .Snake => String.join (((splitWords s).map lowerWord).intersperse "_")
  | .Unknown => s

/-- src/case.rs `detect_case`: classify the case style of a string. -/
def detect_case (s : String) : StringCase :=
  if s.data.contains '-' then
    .Kebab
  else if s.data.contains '_' then
    if toUpperStr s = s then .ScreamingSnake else .Snake
  else if !(s.data.headD ' ').isUpper && s.data.any Char.isUpper then
    .Camel
  else if (s.data.headD ' ').isUpper && s.data.any Char.isLower then
    .Pascal
  else
    .Unknown

/-- src/case.rs `convert_case`: convert a string to a case style
(`Unknown` is the identity; the five concrete styles call the crate's
`to_case`). -/
def convert_case (s : String) (case_type : StringCase) : String :=
  match case_type with
  | .Pascal => to_case s .Pascal
  | .Kebab => to_case s .Kebab
  | .Camel => to_case s .Camel
  | .ScreamingSnake => to_case s .ScreamingSnake
  | .Snake => to_case s .Snake
  | .Unknown => s

/-- The 25 case-conversion assertions of the unit test
`test_case_conversion` in src/case.rs, all satisfied by the model of the
external crate: the model agrees with the real `convert_case` crate on
every conversion the repository's own tests pin down. -/
theorem convert_case_matches_unit_tests :
    convert_case "HelloWorld" .Pascal = "HelloWorld"
    ∧ convert_case "hello-world" .Pascal = "HelloWorld"
    ∧ convert_case "helloWorld" .Pascal = "HelloWorld"
    ∧ convert_case "HELLO_WORLD" .Pascal = "HelloWorld"
    ∧ convert_case "hello_world" .Pascal = "HelloWorld"
    ∧ convert_case "HelloWorld" .Kebab = "hello-world"
    ∧ convert_case "hello-world" .Kebab = "hello-world"
    ∧ convert_case "helloWorld" .Kebab = "hello-world"
    ∧ convert_case "HELLO_WORLD" .Kebab = "hello-world"
    ∧ convert_case "hello_world" .Kebab = "hello-world"
    ∧ convert_case "HelloWorld" .Camel = "helloWorld"
    ∧ convert_case "hello-world" .Camel = "helloWorld"
    ∧ convert_case "helloWorld" .Camel = "helloWorld"
    ∧ convert_case "HELLO_WORLD" .Camel = "helloWorld"
    ∧ convert_case "hello_world" .Camel = "helloWorld"
    ∧ convert_case "HelloWorld" .ScreamingSnake = "HELLO_WORLD"
    ∧ convert_case "hello-world" .ScreamingSnake = "HELLO_WORLD"
    ∧ convert_case "helloWorld" .ScreamingSnake = "HELLO_WORLD"
    ∧ convert_case "HELLO_WORLD" .ScreamingSnake = "HELLO_WORLD"
    ∧ convert_case "hello_world" .ScreamingSnake = "HELLO_WORLD"
    ∧ convert_case "HelloWorld" .Snake = "hello_world"
    ∧ convert_case "hello-world" .Snake = "hello_world"
    ∧ convert_case "helloWorld" .Snake = "hello_world"
    ∧ convert_case "HELLO_WORLD" .Snake = "hello_world"
    ∧ convert_case "hello_world" .Snake = "hello_world" := by
  decide

/-- The five assertions of the unit test `test_case_detection` in
src/case.rs. -/
theorem detect_case_matches_unit_tests :
    detect_case "HelloWorld" = .Pascal
    ∧ detect_case "hello-world" = .Kebab
    ∧ detect_case "helloWorld" = .Camel
    ∧ detect_case "HELLO_WORLD" = .ScreamingSnake
    ∧ detect_case "hello_world" = .Snake := by
  decide

/-! ### src/case.rs — case-variant replacement -/

/-- The fixed iteration order of the five concrete styles in
`replace_with_case_variants` (src/case.rs lines 83-89). -/
def caseVariants : List StringCase :=
  [.Pascal, .Kebab, .Camel, .ScreamingSnake, .Snake]

/-- src/case.rs `replace_with_case_variants`: literal replacement first,
then (when case transformation is enabled) one pass per concrete style,
each pass gated on the variant differing from the original `fromS`, being
non-empty, and occurring in the original `content`.  The global atomic
`GLOBAL_CASE_ENABLED` is modelled as the parameter `caseEnabled`; the
`anyhow::Result` return (always `Ok`) is modelled by `Except`. -/
def replace_with_case_variants (content fromS toS : String) (caseEnabled : Bool) :
    Except String String :=
  let result := rreplace content fromS toS
  let result :=
    if caseEnabled then
      caseVariants.foldl (fun result case_type =>
        let from_variant := convert_case fromS case_type
        if from_variant = fromS ∨ from_variant = "" then
          result
        else if !(rcontains content from_variant) then
          result
        else
          let to_variant := convert_case toS case_type
          rreplace result from_variant to_variant) result
    else result
  Except.ok result

/-! ### src/replacer.rs — rule application -/

/-- src/args.rs `ReplacementRule`: an immutable `(from, to)` pair. -/
structure ReplacementRule where
  fromS : String
  toS : String
deriving DecidableEq

/-- src/replacer.rs `apply_replacement`: stores `case_enabled` into the
global (modelled by passing it through) and calls the case-aware
replacement, falling back to plain literal replacement if that failed
(it never does). -/
def apply_replacement (content fromS toS : String) (case_enabled : Bool) : String :=
  match replace_with_case_variants content fromS toS case_enabled with
  | Except.ok result => result
  | Except.error _ => rreplace content fromS toS

/-- src/replacer.rs `replace_content`: applies all rules sequentially,
each rule's output feeding the next (the `anyhow::Result` wrapper, always
`Ok`, is dropped). -/
def replace_content (content : String) (rules : List ReplacementRule)
    (case_enabled : Bool) : String :=
  rules.foldl (fun result rule =>
    apply_replacement result rule.fromS rule.toS case_enabled) content

/-- C1: for the single rule from="helloWorld", to="goodMorning" with
case-variant expansion enabled, the replacement engine rewrites
"HelloWorld helloWorld hello_world HELLO_WORLD hello-world" to exactly
"GoodMorning goodMorning good_morning GOOD_MORNING good-morning". -/
theorem hello_world_rule_yields_good_morning :
    apply_replacement "HelloWorld helloWorld hello_world HELLO_WORLD hello-world"
      "helloWorld" "goodMorning" true
      = "GoodMorning goodMorning good_morning GOOD_MORNING good-morning" := by
  decide

/-! ### Helper lemmas about the string primitives -/

/-- An empty pattern occurs in every string. -/
theorem rcontainsAux_nil (s : List Char) : rcontainsAux [] s = true := by
  cases s with
  | nil => rfl
  | cons c rest => simp [rcontainsAux, List.isPrefixOf]

/-- If the pattern occurs nowhere in `s`, the fueled replacement copies `s`
unchanged (whatever the fuel). -/
theorem replaceFuel_of_not_contains (pat rep : List Char) (fuel : Nat) (s : List Char)
    (h : rcontainsAux pat s = false) : replaceFuel pat rep fuel s = s := by
  induction s generalizing fuel with
  | nil => cases fuel <;> rfl
  | cons c rest ih =>
    cases fuel with
    | zero => rfl
    | succ n =>
      have h' : (pat.isPrefixOf (c :: rest) || rcontainsAux pat rest) = false := h
      rw [Bool.or_eq_false_iff] at h'
      show replaceFuel pat rep (n + 1) (c :: rest) = c :: rest
      rw [replaceFuel, if_neg (by simp [h'.1]), ih n h'.2]

/-- Rust `str::replace` is the identity when the pattern does not occur. -/
theorem rreplace_of_not_contains (s pat rep : String) (h : rcontains s pat = false) :
    rreplace s pat rep = s := by
  have hne : pat.data ≠ [] := by
    intro he
    rw [rcontains, he, rcontainsAux_nil] at h
    simp at h
  rw [rreplace, if_neg hne, replaceFuel_of_not_contains pat.data rep.data _ _ h]

/-- A guarded left fold equals the plain fold over the filtered list. -/
theorem foldl_guard_eq_foldl_filter {α β : Type} (p : α → Bool) (f g : β → α → β)
    (h : ∀ b a, f b a = if p a then g b a else b) :
    ∀ (l : List α) (b : β), l.foldl f b = (l.filter p).foldl g b := by
  intro l
  induction l with
  | nil => intro b; rfl
  | cons a l ih =>
    intro b
    rw [List.foldl_cons, h, List.filter_cons]
    by_cases hp : p a = true
    · simp only [hp, if_true, List.foldl_cons, ih]
    · rw [Bool.not_eq_true] at hp
      simp [hp, ih]

/-! ### C4 — the occurrence guard reads the pristine content -/

/-- Modelled from the spec (§4.2 step 2): the styles applicable to a rule,
judged once against the pristine input: the variant of `fromS` must differ
from `fromS`, be non-empty, and occur as a substring of the original
`content`. -/
def applicable_variants (content fromS : String) : List StringCase :=
  caseVariants.filter (fun case_type =>
    let v := convert_case fromS case_type
    !(v == fromS || v == "") && rcontains content v)

/-- Modelled from the spec (§4.2): first the literal replacement, then one
replacement pass per applicable style, where applicability was computed
up front from the pristine content — so no pass can enable or disable
another pass's applicability. -/
def replace_with_case_variants_spec (content fromS toS : String) : String :=
  (applicable_variants content fromS).foldl
    (fun result case_type =>
      rreplace result (convert_case fromS case_type) (convert_case toS case_type))
    (rreplace content fromS toS)

/-- C4: with case-variant expansion enabled, `replace_with_case_variants`
evaluates every style's occurrence guard against the original, pristine
content: it equals the two-phase computation that first fixes the set of
applicable styles from the pristine content and only then performs the
replacement passes, so a replacement made for one style can never enable
or disable another style's applicability. -/
theorem variant_guard_checks_pristine_content (content fromS toS : String) :
    replace_with_case_variants content fromS toS true
      = Except.ok (replace_with_case_variants_spec content fromS toS) := by
  simp only [replace_with_case_variants, replace_with_case_variants_spec,
    applicable_variants, if_true]
  congr 1
  refine foldl_guard_eq_foldl_filter _ _ _ ?_ caseVariants (rreplace content fromS toS)
  intro b a
  by_cases h1 : convert_case fromS a = fromS ∨ convert_case fromS a = ""
  · rw [if_pos h1, if_neg]
    simp only [Bool.and_eq_true, Bool.not_eq_true', Bool.or_eq_false_iff, beq_eq_false_iff_ne]
    intro hc
    rcases h1 with h1 | h1 <;> [exact hc.1.1 h1; exact hc.1.2 h1]
  · rw [if_neg h1]
    push_neg at h1
    by_cases h2 : rcontains content (convert_case fromS a) = true
    · rw [if_neg (by simp [h2]), if_pos]
      simp only [Bool.and_eq_true, Bool.not_eq_true', Bool.or_eq_false_iff, beq_eq_false_iff_ne]
      exact ⟨⟨h1.1, h1.2⟩, h2⟩
    · rw [if_pos (by simp [Bool.not_eq_true] at h2 ⊢; exact h2), if_neg]
      simp only [Bool.and_eq_true]
      intro hc
      exact h2 hc.2

/-! ### C9 — a rule occurring in no form leaves the content unchanged -/

/-- If no case variant of `fromS` occurs in `content`, the variant passes
of `replace_with_case_variants` leave the accumulator untouched. -/
theorem fold_variants_of_no_occurrence (content fromS toS : String)
    (l : List StringCase)
    (h : ∀ c ∈ l, rcontains content (convert_case fromS c) = false) :
    ∀ acc : String,
      l.foldl (fun result case_type =>
        let from_variant := convert_case fromS case_type
        if from_variant = fromS ∨ from_variant = "" then
          result
        else if !(rcontains content from_variant) then
          result
        else
          let to_variant := convert_case toS case_type
          rreplace result from_variant to_variant) acc = acc := by
  induction l with
  | nil => intro acc; rfl
  | cons c l ih =>
    intro acc
    rw [List.foldl_cons]
    have hc := h c (List.mem_cons_self c l)
    have hrest : ∀ c ∈ l, rcontains content (convert_case fromS c) = false :=
      fun c hm => h c (List.mem_cons_of_mem _ hm)
    by_cases h1 : convert_case fromS c = fromS ∨ convert_case fromS c = ""
    · simp only [if_pos h1]
      exact ih hrest acc
    · simp only [if_neg h1, hc, Bool.not_false, if_true]
      exact ih hrest acc

/-- C9: for content `C` and a rule `R` whose `from` occurs in `C` in no
form — neither literally nor as any of the five case-converted variants —
applying the engine with case-variant expansion enabled returns `C`
unchanged. -/
theorem no_occurrence_apply_id (C : String) (R : ReplacementRule)
    (hlit : rcontains C R.fromS = false)
    (hvar : ∀ c ∈ caseVariants, rcontains C (convert_case R.fromS c) = false) :
    apply_replacement C R.fromS R.toS true = C := by
  simp only [apply_replacement, replace_with_case_variants, if_true]
  rw [rreplace_of_not_contains C R.fromS R.toS hlit]
  rw [fold_variants_of_no_occurrence C R.fromS R.toS caseVariants hvar C]

/-- Witness for C9 at a concrete input: neither "abc" nor any of its five
case variants occurs in "xyz", and the engine returns "xyz" unchanged. -/
theorem no_occurrence_apply_id_witness :
    rcontains "xyz" "abc" = false
    ∧ (∀ c ∈ caseVariants, rcontains "xyz" (convert_case "abc" c) = false)
    ∧ apply_replacement "xyz" "abc" "q" true = "xyz" :=
  ⟨by decide, by decide,
    no_occurrence_apply_id "xyz" ⟨"abc", "q"⟩ (by decide) (by decide)⟩

/-! ### C8 — the detect_case classification cascade -/

/-- The claim's classification cascade, word for word: contains `-` →
Kebab; contains `_` → ScreamingSnake when the token is entirely uppercase
(uppercasing leaves it unchanged), else Snake; else first character
**lowercase** and some character uppercase → Camel; else first character
uppercase and some character lowercase → Pascal; else Unrecognized. -/
def detect_case_claim (s : String) : StringCase :=
  if s.data.contains '-' then
    .Kebab
  else if s.data.contains '_' then
    if toUpperStr s = s then .ScreamingSnake else .Snake
  else if (s.data.headD ' ').isLower && s.data.any Char.isUpper then
    .Camel
  else if (s.data.headD ' ').isUpper && s.data.any Char.isLower then
    .Pascal
  else
    .Unknown

/-- Counterexample to C8 at the concrete token "1A": the code tests that
the first character is *not uppercase* (src/case.rs line 33), not that it
*is lowercase* as the claim states, so `detect_case` classifies "1A" as
Camel while the claim's cascade yields Unrecognized. -/
theorem detect_case_claim_cex :
    detect_case "1A" = StringCase.Camel
    ∧ detect_case_claim "1A" = StringCase.Unknown
    ∧ detect_case "1A" ≠ detect_case_claim "1A" := by
  decide

/-- The claim's cascade amended no more than the counterexample forces:
the Camel branch requires the first character *not to be uppercase*
(rather than to be lowercase). -/
def detect_case_amended (s : String) : StringCase :=
  if s.data.contains '-' then
    .Kebab
  else if s.data.contains '_' then
    if toUpperStr s = s then .ScreamingSnake else .Snake
  else if !(s.data.headD ' ').isUpper && s.data.any Char.isUpper then
    .Camel
  else if (s.data.headD ' ').isUpper && s.data.any Char.isLower then
    .Pascal
  else
    .Unknown

/-- C8 (amended): for every token, `detect_case` classifies it by the
claim's priority cascade with the Camel condition amended to "the first
character is not uppercase and at least one character is uppercase". -/
theorem detect_case_amended_agrees (s : String) :
    detect_case s = detect_case_amended s := rfl

/-! ### The filesystem model -/

/-- A filesystem entry: full path, directory flag, and for files the UTF-8
content — `none` on a file means `fs::read_to_string` fails on it (a
binary file). -/
structure FSEntry where
  path : String
  isDir : Bool
  content : Option String
deriving DecidableEq

/-- A filesystem: the list of its entries. -/
abbrev FS : Type := List FSEntry

/-- Look up the entry at a path. -/
def fsFind (fs : FS) (p : String) : Option FSEntry :=
  fs.find? (fun e => e.path == p)

/-- Rust `Path::exists`. -/
def fsExists (fs : FS) (p : String) : Bool :=
  fs.any (fun e => e.path == p)

/-- Rust `Path::is_file`: the path exists and is not a directory. -/
def isLiveFile (fs : FS) (p : String) : Bool :=
  match fsFind fs p with
  | some e => !e.isDir
  | none => false

/-- Rust `Path::is_dir`: the path exists and is a directory. -/
def isLiveDir (fs : FS) (p : String) : Bool :=
  match fsFind fs p with
  | some e => e.isDir
  | none => false

/-- Rust `fs::read_to_string`: fails (`none`) on a missing path, on a
directory, and on a file whose bytes are not UTF-8. -/
def fsRead (fs : FS) (p : String) : Option String :=
  match fsFind fs p with
  | some e => if e.isDir then none else e.content
  | none => none

/-- Rust `fs::write` of UTF-8 text to an existing file (creates the file
when missing). -/
def fsWriteFile (fs : FS) (p : String) (c : String) : FS :=
  if fsExists fs p then
    fs.map (fun e => if e.path == p then ⟨e.path, e.isDir, some c⟩ else e)
  else
    fs ++ [⟨p, false, some c⟩]

/-- Rust `fs::create_dir_all`, restricted to the directory itself
(ancestor creation is irrelevant to the claims). -/
def fsEnsureDir (fs : FS) (p : String) : FS :=
  if fsExists fs p then fs else fs ++ [⟨p, true, none⟩]

/-- Rust `fs::rename src dst`: the entry at `src` moves to `dst` and, as
the OS moves a directory together with its subtree, every strict
descendant `src/x` moves to `dst/x`. -/
def fsRename (fs : FS) (src dst : String) : FS :=
  fs.map (fun e =>
    if e.path == src || (src ++ "/").data.isPrefixOf e.path.data then
      ⟨dst ++ strDrop e.path src.length, e.isDir, e.content⟩
    else e)

/-! ### src/scanner.rs — in-place content replacement and renaming -/

/-- src/scanner.rs `process_file_content`: skip non-files; read as UTF-8
text (a failed read propagates as an error via `?`); write back only when
the replacement changed the content. -/
def process_file_content (fs : FS) (file_path : String)
    (rules : List ReplacementRule) (ce : Bool) : FS × Except String Unit :=
  if !(isLiveFile fs file_path) then
    (fs, Except.ok ())
  else
    match fsRead fs file_path with
    | none => (fs, Except.error ("Failed to read file: " ++ file_path))
    | some content =>
      let replaced := replace_content content rules ce
      if content ≠ replaced then
        (fsWriteFile fs file_path replaced, Except.ok ())
      else
        (fs, Except.ok ())

/-- src/scanner.rs `rename_path`: skip files when file renaming is
disabled and directories when directory renaming is disabled (the global
atomics are the parameters `rf`/`rd`); transform the final path component;
on a change, skip with a reported conflict when the destination already
exists and is not the source itself, otherwise perform the rename (a
rename of a missing source fails). -/
def rename_path (fs : FS) (p : String) (rules : List ReplacementRule)
    (ce rf rd : Bool) : FS × Except String Unit :=
  if isLiveFile fs p && !rf then
    (fs, Except.ok ())
  else if isLiveDir fs p && !rd then
    (fs, Except.ok ())
  else
    let old_name := pathFileName p
    let new_name := replace_content old_name rules ce
    if old_name ≠ new_name then
      let parent := pathParent p
      let new_path := pathJoin parent new_name
      if fsExists fs new_path && new_path ≠ p then
        (fs, Except.ok ())
      else if fsExists fs p then
        (fsRename fs p new_path, Except.ok ())
      else
        (fs, Except.error ("Failed to rename " ++ p ++ " to " ++ new_path))
    else
      (fs, Except.ok ())

/-- Stable insertion of a path into a list sorted descending by
path-string length (equal lengths keep their order). -/
def insertLenDesc (x : String) : List String → List String
  | [] => [x]
  | y :: ys =>
    if x.length < y.length then y :: insertLenDesc x ys else x :: y :: ys

/-- src/scanner.rs lines 74-80: the collected paths sorted by
`b.len().cmp(&a.len())` — descending by path-string length — with Rust's
stable `sort_by` modelled by a stable insertion sort. -/
def sortPathsDesc (l : List String) : List String :=
  l.foldr insertLenDesc []

/-- Phase 1 of src/scanner.rs `walk_and_process_path` (in-place): process
the content of every file in the traversal snapshot; a failure propagates
via `?` and stops the loop. -/
def phase1 (fs : FS) (paths : List String) (rules : List ReplacementRule)
    (ce : Bool) : FS × Except String Unit :=
  match paths with
  | [] => (fs, Except.ok ())
  | p :: rest =>
    if isLiveFile fs p then
      match process_file_content fs p rules ce with
      | (fs1, Except.ok _) => phase1 fs1 rest rules ce
      | (fs1, Except.error e) => (fs1, Except.error e)
    else
      phase1 fs rest rules ce

/-- Phase 2 of src/scanner.rs `walk_and_process_path` (in-place): rename
every path of the sorted snapshot; a failure propagates via `?` and stops
the loop. -/
def phase2 (fs : FS) (paths : List String) (rules : List ReplacementRule)
    (ce rf rd : Bool) : FS × Except String Unit :=
  match paths with
  | [] => (fs, Except.ok ())
  | p :: rest =>
    match rename_path fs p rules ce rf rd with
    | (fs1, Except.ok _) => phase2 fs1 rest rules ce rf rd
    | (fs1, Except.error e) => (fs1, Except.error e)

/-- src/scanner.rs `walk_and_process_path` with `args.in_place = true`:
the walker's collected snapshot `all_paths` is a parameter (its order is
implementation-defined); phase 1 rewrites file contents, then phase 2
renames the snapshot sorted descending by path-string length.  An error
in either phase aborts the whole run. -/
def walk_and_process_in_place (fs : FS) (all_paths : List String)
    (rules : List ReplacementRule) (ce rf rd : Bool) : FS × Except String Unit :=
  match phase1 fs all_paths rules ce with
  | (fs1, Except.ok _) => phase2 fs1 (sortPathsDesc all_paths) rules ce rf rd
  | (fs1, Except.error e) => (fs1, Except.error e)

instance : DecidableEq (Except String Unit) := fun a b =>
  match a, b with
  | Except.ok (), Except.ok () => isTrue rfl
  | Except.error e1, Except.error e2 =>
    if h : e1 = e2 then isTrue (by rw [h])
    else isFalse (fun he => by cases he; exact h rfl)
  | Except.ok _, Except.error _ => isFalse (fun he => Except.noConfusion he)
  | Except.error _, Except.ok _ => isFalse (fun he => Except.noConfusion he)

/-! ### C2 — a failed UTF-8 read does not skip: it aborts the run -/

/-- A tree with a binary file followed by a text file the rule applies to. -/
def fsWithBinary : FS :=
  [⟨"bin.dat", false, none⟩, ⟨"b.txt", false, some "helloWorld"⟩]

/-- Counterexample to C2 at a concrete tree: with a binary file
`bin.dat` (whose UTF-8 read fails) and a text file `b.txt` containing
"helloWorld" both in the traversal snapshot, the in-place run is aborted
by the read error — the binary file is not merely skipped, `b.txt` is
never processed (its content is still "helloWorld" although the rule
applies to it), contradicting "processing continues with all remaining
entries". -/
theorem binary_read_aborts_run_cex :
    walk_and_process_in_place fsWithBinary ["bin.dat", "b.txt"]
        [⟨"helloWorld", "goodMorning"⟩] true true true
      = (fsWithBinary, Except.error "Failed to read file: bin.dat")
    ∧ fsRead fsWithBinary "b.txt" = some "helloWorld" := by
  constructor
  · decide
  · decide

/-- C2 (amended): in the in-place tree operation, when the first traversed
entry that is a file fails to read as UTF-8 text, the whole run aborts
with that read error — the file's content is never mutated, but the
remaining entries are not processed either (the error propagates through
`walk_and_process_path`); only directory-walk errors are skipped. -/
theorem binary_read_aborts_run (fs : FS) (p : String) (rest : List String)
    (rules : List ReplacementRule) (ce rf rd : Bool)
    (hfile : isLiveFile fs p = true) (hread : fsRead fs p = none) :
    walk_and_process_in_place fs (p :: rest) rules ce rf rd
      = (fs, Except.error ("Failed to read file: " ++ p)) := by
  rw [walk_and_process_in_place, phase1]
  rw [if_pos hfile]
  rw [process_file_content, if_neg (by rw [hfile]; decide), hread]

/-- Witness for C2 (amended) at a concrete input: on `fsWithBinary` the
read of `bin.dat` fails and the whole run aborts. -/
theorem binary_read_aborts_run_witness :
    isLiveFile fsWithBinary "bin.dat" = true
    ∧ fsRead fsWithBinary "bin.dat" = none
    ∧ walk_and_process_in_place fsWithBinary ["bin.dat", "b.txt"]
        [⟨"helloWorld", "goodMorning"⟩] true true false
      = (fsWithBinary, Except.error "Failed to read file: bin.dat") :=
  ⟨by decide, by decide,
    binary_read_aborts_run fsWithBinary "bin.dat" ["b.txt"]
      [⟨"helloWorld", "goodMorning"⟩] true true false (by decide) (by decide)⟩

/-! ### C5 — deepest-first rename ordering -/

/-- Membership in an insertion: the inserted element or an element of the
original list. -/
theorem mem_insertLenDesc (x z : String) :
    ∀ ys : List String, z ∈ insertLenDesc x ys → z = x ∨ z ∈ ys := by
  intro ys
  induction ys with
  | nil =>
    intro h
    rcases List.mem_singleton.mp h with h
    exact Or.inl h
  | cons y ys ih =>
    intro h
    rw [insertLenDesc] at h
    by_cases hc : x.length < y.length
    · rw [if_pos hc] at h
      rcases List.mem_cons.mp h with h | h
      · exact Or.inr (List.mem_cons.mpr (Or.inl h))
      · rcases ih h with h | h
        · exact Or.inl h
        · exact Or.inr (List.mem_cons.mpr (Or.inr h))
    · rw [if_neg hc] at h
      rcases List.mem_cons.mp h with h | h
      · exact Or.inl h
      · exact Or.inr h

/-- Insertion keeps the list pairwise sorted descending by length. -/
theorem pairwise_insertLenDesc (x : String) :
    ∀ ys : List String, ys.Pairwise (fun a b => b.length ≤ a.length) →
      (insertLenDesc x ys).Pairwise (fun a b => b.length ≤ a.length) := by
  intro ys
  induction ys with
  | nil => intro _; simp [insertLenDesc]
  | cons y ys ih =>
    intro h
    rcases List.pairwise_cons.mp h with ⟨hy, hys⟩
    rw [insertLenDesc]
    by_cases hc : x.length < y.length
    · rw [if_pos hc]
      refine List.pairwise_cons.mpr ⟨?_, ih hys⟩
      intro z hz
      rcases mem_insertLenDesc x z ys hz with hz | hz
      · exact hz ▸ Nat.le_of_lt hc
      · exact hy z hz
    · rw [if_neg hc]
      refine List.pairwise_cons.mpr ⟨?_, h⟩
      intro z hz
      rcases List.mem_cons.mp hz with hz | hz
      · exact hz ▸ Nat.le_of_not_lt hc
      · exact Nat.le_trans (hy z hz) (Nat.le_of_not_lt hc)

/-- The sorted snapshot is pairwise descending by path-string length. -/
theorem pairwise_sortPathsDesc (l : List String) :
    (sortPathsDesc l).Pairwise (fun a b => b.length ≤ a.length) := by
  induction l with
  | nil => exact List.Pairwise.nil
  | cons a l ih => exact pairwise_insertLenDesc a (sortPathsDesc l) ih

/-- A Boolean prefix implies the length inequality. -/
theorem isPrefixOf_length_le :
    ∀ l₁ l₂ : List Char, l₁.isPrefixOf l₂ = true → l₁.length ≤ l₂.length := by
  intro l₁
  induction l₁ with
  | nil => intro l₂ _; exact Nat.zero_le _
  | cons a as ih =>
    intro l₂ h
    cases l₂ with
    | nil => simp [List.isPrefixOf] at h
    | cons b bs =>
      rw [List.isPrefixOf, Bool.and_eq_true] at h
      exact Nat.succ_le_succ (ih bs h.2)

/-- The nested tree `a/b/c.txt` (directories `a`, `a/b`; the file's
content is "a"). -/
def fsNested : FS :=
  [⟨"a", true, none⟩, ⟨"a/b", true, none⟩, ⟨"a/b/c.txt", false, some "a"⟩]

/-- The tree after a full in-place run with the rule a → z. -/
def fsNestedRenamed : FS :=
  [⟨"z", true, none⟩, ⟨"z/b", true, none⟩, ⟨"z/b/c.txt", false, some "z"⟩]

/-- C5: the collected paths are sorted descending by path-string length
before any rename, so in the sorted order no entry is followed by one of
its strict descendants — every descendant is renamed before any of its
ancestors (first conjunct: for any snapshot, the sorted list is pairwise
"the earlier path is not a strict ancestor of the later one").  In
particular (second and third conjuncts), for the nested tree `a/b/c.txt`
under the rule a → z the full in-place run terminates without error and
the final tree contains `z/b/c.txt`, with the content of `c.txt` also
transformed to "z". -/
theorem rename_deepest_first_and_nested_scenario :
    (∀ l : List String,
      (sortPathsDesc l).Pairwise
        (fun a b => (a ++ "/").data.isPrefixOf b.data = false))
    ∧ walk_and_process_in_place fsNested ["a", "a/b", "a/b/c.txt"]
        [⟨"a", "z"⟩] true true true = (fsNestedRenamed, Except.ok ())
    ∧ fsRead fsNestedRenamed "z/b/c.txt" = some "z" := by
  refine ⟨?_, by decide, by decide⟩
  intro l
  refine (pairwise_sortPathsDesc l).imp ?_
  intro a b hlen
  by_contra hpre
  rw [Bool.not_eq_false] at hpre
  have h1 : (a ++ "/").data.length ≤ b.data.length := isPrefixOf_length_le _ _ hpre
  have h2 : (a ++ "/").data.length = a.data.length + 1 := by
    show (a.data ++ ['/']).length = a.data.length + 1
    simp
  have h3 : a.length = a.data.length := rfl
  have h4 : b.length = b.data.length := rfl
  omega

/-! ### C6 — a rename conflict is skipped, never overwritten -/

/-- C6: during in-place renaming, when the transformed name differs from
the original but an entry already exists at the computed destination path
and that destination is not the source itself, `rename_path` skips the
rename with a reported conflict and leaves the filesystem — in particular
the existing destination entry and its content — completely untouched. -/
theorem rename_conflict_never_overwrites (fs : FS) (p : String)
    (rules : List ReplacementRule) (ce : Bool)
    (hchanged : pathFileName p ≠ replace_content (pathFileName p) rules ce)
    (hexists :
      fsExists fs (pathJoin (pathParent p) (replace_content (pathFileName p) rules ce))
        = true)
    (hne : pathJoin (pathParent p) (replace_content (pathFileName p) rules ce) ≠ p) :
    rename_path fs p rules ce true true = (fs, Except.ok ()) := by
  rw [rename_path]
  rw [if_neg (by simp), if_neg (by simp)]
  simp only [if_pos hchanged]
  rw [if_pos (by rw [hexists]; simpa using hne)]

/-- Both `foo` and `bar` exist; the rule would rename `foo` to `bar`. -/
def fsFooBar : FS :=
  [⟨"foo", false, some "X"⟩, ⟨"bar", false, some "Y"⟩]

/-- Witness for C6 at a concrete input: renaming `foo` under the rule
foo → bar collides with the existing `bar`; the rename is skipped and
`bar` keeps its original content "Y". -/
theorem rename_conflict_never_overwrites_witness :
    pathFileName "foo" ≠ replace_content (pathFileName "foo") [⟨"foo", "bar"⟩] true
    ∧ fsExists fsFooBar
        (pathJoin (pathParent "foo")
          (replace_content (pathFileName "foo") [⟨"foo", "bar"⟩] true)) = true
    ∧ rename_path fsFooBar "foo" [⟨"foo", "bar"⟩] true true true
        = (fsFooBar, Except.ok ())
    ∧ fsRead fsFooBar "bar" = some "Y" :=
  ⟨by decide, by decide,
    rename_conflict_never_overwrites fsFooBar "foo" [⟨"foo", "bar"⟩] true
      (by decide) (by decide) (by decide),
    by decide⟩

/-! ### C10 — src/replacer.rs `replace_files` stdout behaviour -/

/-- The state of one path of `args.files` as `replace_files` visits it:
whether it exists, whether it is a directory, and its UTF-8 content
(`none` when reading it as text fails). -/
structure RFile where
  path : String
  present : Bool
  isDir : Bool
  content : Option String
deriving DecidableEq

/-- src/replacer.rs `replace_files`: missing paths and directories are
skipped with a stderr warning; a file is read (a failed read propagates
via `?` and aborts, after the stdout output already produced); when the
replacement changed the content, in-place mode writes the file back
(printing "Modified" to stdout only when verbose), otherwise the
transformed content is written to stdout; an unchanged file produces no
stdout output.  The model returns the accumulated stdout text together
with the `Except` outcome. -/
def replace_files (files : List RFile) (rules : List ReplacementRule)
    (ce in_place verbose : Bool) : String × Except String Unit :=
  match files with
  | [] => ("", Except.ok ())
  | f :: rest =>
    if !f.present then
      replace_files rest rules ce in_place verbose
    else if f.isDir then
      replace_files rest rules ce in_place verbose
    else
      match f.content with
      | none => ("", Except.error ("Failed to read file: " ++ f.path))
      | some content =>
        let replaced := replace_content content rules ce
        let contrib :=
          if content ≠ replaced then
            if in_place then
              if verbose then "Modified: " ++ f.path ++ "\n" else ""
            else
              replaced
          else ""
        let r := replace_files rest rules ce in_place verbose
        (contrib ++ r.1, r.2)

/-- The stdout contribution of one file in non-in-place file mode: the
transformed content when it differs from the original, nothing otherwise
(and nothing for missing paths and directories). -/
def stdout_contribution (f : RFile) (rules : List ReplacementRule) (ce : Bool) :
    String :=
  if f.present && !f.isDir then
    match f.content with
    | some c =>
      if c ≠ replace_content c rules ce then replace_content c rules ce else ""
    | none => ""
  else ""

/-- C10: in file mode without in-place, when the run succeeds its stdout
output is exactly the concatenation, in file order, of the transformed
contents of the files the rules changed — a file whose content is left
unchanged by every rule contributes no stdout output at all. -/
theorem strEmptyAppend (s : String) : "" ++ s = s := rfl

theorem unchanged_files_produce_no_stdout (files : List RFile)
    (rules : List ReplacementRule) (ce v : Bool)
    (hok : (replace_files files rules ce false v).2 = Except.ok ()) :
    (replace_files files rules ce false v).1
      = (files.map (fun f => stdout_contribution f rules ce)).foldr
          (fun a b => a ++ b) "" := by
  induction files with
  | nil => rfl
  | cons f rest ih =>
    rw [replace_files] at hok ⊢
    by_cases hp : f.present = true
    · by_cases hd : f.isDir = true
      · simp only [hp, hd, Bool.not_true, Bool.false_eq_true, if_false, if_true] at hok ⊢
        rw [List.map_cons, List.foldr_cons, ih hok, stdout_contribution,
          if_neg (by simp [hp, hd]), strEmptyAppend]
      · rw [Bool.not_eq_true] at hd
        simp only [hp, hd, Bool.not_true, Bool.false_eq_true, if_false] at hok ⊢
        revert hok
        cases hc : f.content with
        | none => intro hok; exact absurd hok (by simp)
        | some c =>
          intro hok
          dsimp only at hok ⊢
          rw [List.map_cons, List.foldr_cons, ← ih hok]
          simp [stdout_contribution, hp, hd, hc]
    · rw [Bool.not_eq_true] at hp
      simp only [hp, Bool.not_false, if_true] at hok ⊢
      rw [List.map_cons, List.foldr_cons, ih hok, stdout_contribution,
        if_neg (by simp [hp]), strEmptyAppend]

/-- Witness for C10 at a concrete input: of two files, the rules change
only the second; stdout is exactly the second file's transformed content
"hi". -/
theorem unchanged_files_produce_no_stdout_witness :
    (replace_files
        [⟨"u.txt", true, false, some "zzz"⟩, ⟨"c.txt", true, false, some "helloWorld"⟩]
        [⟨"helloWorld", "hi"⟩] true false false).2 = Except.ok ()
    ∧ (replace_files
        [⟨"u.txt", true, false, some "zzz"⟩, ⟨"c.txt", true, false, some "helloWorld"⟩]
        [⟨"helloWorld", "hi"⟩] true false false).1
      = ([⟨"u.txt", true, false, some "zzz"⟩,
          ⟨"c.txt", true, false, some "helloWorld"⟩].map
            (fun f => stdout_contribution f [⟨"helloWorld", "hi"⟩] true)).foldr
          (fun a b => a ++ b) "" :=
  ⟨by decide,
    unchanged_files_produce_no_stdout
      [⟨"u.txt", true, false, some "zzz"⟩, ⟨"c.txt", true, false, some "helloWorld"⟩]
      [⟨"helloWorld", "hi"⟩] true false (by decide)⟩

/-! ### src/copier.rs — copy with replacements -/

/-- src/args.rs `CopySpec`: a (source, target) pair. -/
structure CopySpec where
  source : String
  target : String
deriving DecidableEq

/-- src/copier.rs `apply_all_replacements`: every rule applied
sequentially with case handling always enabled. -/
def apply_all_replacements (content : String) (rules : List ReplacementRule) :
    String :=
  rules.foldl (fun result rule =>
    apply_replacement result rule.fromS rule.toS true) content

/-- src/copier.rs `transform_path`: transform each component of a
relative path.  A component is classified as a file exactly when
`path.join(component)` — the *whole* relative path joined with the
component, resolved against the live filesystem — is not a directory;
the live-filesystem probe `Path::is_dir` is the parameter `isDirProbe`.
File components are transformed under `rename_file`, directory components
under `rename_dir`. -/
def transform_path (path : String) (rules : List ReplacementRule)
    (rename_file rename_dir : Bool) (isDirProbe : String → Bool) : String :=
  (pathComponents path).foldl (fun result component =>
    let is_file := !(isDirProbe (pathJoin path component))
    let transformed :=
      if (is_file && rename_file) || (!is_file && rename_dir) then
        rules.foldl (fun t rule =>
          apply_replacement t rule.fromS rule.toS true) component
      else component
    pathJoin result transformed) ""

/-- src/copier.rs `copy_file`: when the target is an existing directory
the file is copied into it under its original base name; the target's
parent directory is created; a UTF-8-readable source is written with all
replacements applied, a binary source is copied byte for byte (modelled
by duplicating the unreadable marker).  Writes always overwrite. -/
def copy_file (fs : FS) (source target : String) (rules : List ReplacementRule) :
    FS × Except String Unit :=
  let actual_target :=
    if isLiveDir fs target then pathJoin target (pathFileName source) else target
  let fs1 := fsEnsureDir fs (pathParent actual_target)
  match fsRead fs1 source with
  | some content =>
    (fsWriteFile fs1 actual_target (apply_all_replacements content rules),
      Except.ok ())
  | none =>
    (if fsExists fs1 actual_target then
        fs1.map (fun e =>
          if e.path == actual_target then ⟨e.path, e.isDir, none⟩ else e)
      else fs1 ++ [⟨actual_target, false, none⟩],
      Except.ok ())

/-- The walker loop of src/copier.rs `copy_directory` over the snapshot of
entries strictly under the source directory: each entry's relative path is
transformed (when either rename toggle is on) and joined under the actual
target directory; files are copied, directories created. -/
def copy_directory_entries (fs : FS) (entries : List FSEntry)
    (source_dir actual_target_dir : String) (rules : List ReplacementRule)
    (rename_file rename_dir : Bool) : FS × Except String Unit :=
  match entries with
  | [] => (fs, Except.ok ())
  | e :: rest =>
    let relative := strDrop e.path (source_dir.length + 1)
    let replaced :=
      if rename_file || rename_dir then
        transform_path relative rules rename_file rename_dir
          (fun q => isLiveDir fs q)
      else relative
    let target_path := pathJoin actual_target_dir replaced
    if isLiveFile fs e.path then
      match copy_file fs e.path target_path rules with
      | (fs1, Except.ok _) =>
        copy_directory_entries fs1 rest source_dir actual_target_dir rules
          rename_file rename_dir
      | (fs1, Except.error err) => (fs1, Except.error err)
    else if isLiveDir fs e.path then
      copy_directory_entries (fsEnsureDir fs target_path) rest source_dir
        actual_target_dir rules rename_file rename_dir
    else
      copy_directory_entries fs rest source_dir actual_target_dir rules
        rename_file rename_dir

/-- src/copier.rs `copy_directory`: compute the actual target directory
(when the target exists as a directory, the source directory's name —
transformed under the directory-rename toggle — is appended), create it,
then walk the source subtree.  The ignore-aware walker is modelled as
yielding every live entry strictly under the source in filesystem order
(ignore-file exclusion is not modelled; no claim depends on it). -/
def copy_directory (fs : FS) (source_dir target_dir : String)
    (rules : List ReplacementRule) (rename_file rename_dir : Bool) :
    FS × Except String Unit :=
  let actual_target_dir :=
    if fsExists fs target_dir && isLiveDir fs target_dir then
      if rename_dir then
        pathJoin target_dir
          (rules.foldl (fun n rule =>
            apply_replacement n rule.fromS rule.toS true) (pathFileName source_dir))
      else pathJoin target_dir (pathFileName source_dir)
    else target_dir
  let fs1 := fsEnsureDir fs actual_target_dir
  let entries :=
    fs1.filter (fun e => (source_dir ++ "/").data.isPrefixOf e.path.data)
  copy_directory_entries fs1 entries source_dir actual_target_dir rules
    rename_file rename_dir

/-- src/copier.rs `copy_with_replacements`: for each `(source, target)`
pair in order — a missing source is returned as an error via
`return Err(...)`, which ends the whole loop; a directory source with an
existing plain-file target is reported and skipped with `continue`; file
and directory sources are copied (their failures propagate via `?`). -/
def copy_with_replacements (fs : FS) (specs : List CopySpec)
    (rules : List ReplacementRule) (rename_file rename_dir : Bool) :
    FS × Except String Unit :=
  match specs with
  | [] => (fs, Except.ok ())
  | spec :: rest =>
    if !(fsExists fs spec.source) then
      (fs, Except.error ("Source path does not exist: " ++ spec.source))
    else if isLiveDir fs spec.source && (fsExists fs spec.target && isLiveFile fs spec.target) then
      copy_with_replacements fs rest rules rename_file rename_dir
    else if isLiveFile fs spec.source then
      match copy_file fs spec.source spec.target rules with
      | (fs1, Except.ok _) =>
        copy_with_replacements fs1 rest rules rename_file rename_dir
      | (fs1, Except.error e) => (fs1, Except.error e)
    else if isLiveDir fs spec.source then
      match copy_directory fs spec.source spec.target rules rename_file rename_dir with
      | (fs1, Except.ok _) =>
        copy_with_replacements fs1 rest rules rename_file rename_dir
      | (fs1, Except.error e) => (fs1, Except.error e)
    else
      (fs, Except.error ("Unsupported source type: " ++ spec.source))

/-! ### C3 — a missing copy source aborts the whole run -/

/-- A filesystem with a valid second copy source and a target directory. -/
def fsCopy : FS :=
  [⟨"src2.txt", false, some "x"⟩, ⟨"tgt", true, none⟩]

/-- Counterexample to C3 at a concrete input: of the ordered pairs
`(missing.txt, tgt)` and `(src2.txt, tgt)`, the first pair's source does
not exist; `copy_with_replacements` returns that error immediately
(`return Err(...)` in src/copier.rs line 22), so the second, valid pair is
never attempted — no copy of `src2.txt` appears under `tgt`, contradicting
"all subsequent pairs in the list are still attempted". -/
theorem missing_source_aborts_copy_cex :
    copy_with_replacements fsCopy
        [⟨"missing.txt", "tgt"⟩, ⟨"src2.txt", "tgt"⟩] [] true true
      = (fsCopy, Except.error "Source path does not exist: missing.txt")
    ∧ fsExists fsCopy "tgt/src2.txt" = false := by
  constructor
  · decide
  · decide

/-- C3 (amended): in copy mode, a pair whose source path does not exist is
a hard error for the whole run: the error is returned immediately and no
subsequent pair in the list is attempted (the filesystem is left exactly
as it was).  Only the directory-source-to-plain-file-target combination is
skipped per pair with the remaining pairs continuing. -/
theorem missing_source_aborts_copy (fs : FS) (spec : CopySpec)
    (rest : List CopySpec) (rules : List ReplacementRule) (rf rd : Bool)
    (hmissing : fsExists fs spec.source = false) :
    copy_with_replacements fs (spec :: rest) rules rf rd
      = (fs, Except.error ("Source path does not exist: " ++ spec.source)) := by
  rw [copy_with_replacements, if_pos (by rw [hmissing]; decide)]

/-- Witness for C3 (amended) at a concrete input: `missing.txt` does not
exist in `fsCopy`, and the run aborts with that error before the remaining
pair. -/
theorem missing_source_aborts_copy_witness :
    fsExists fsCopy "missing.txt" = false
    ∧ copy_with_replacements fsCopy
        [⟨"missing.txt", "tgt"⟩, ⟨"src2.txt", "tgt"⟩] [] false true
      = (fsCopy, Except.error "Source path does not exist: missing.txt") :=
  ⟨by decide,
    missing_source_aborts_copy fsCopy ⟨"missing.txt", "tgt"⟩
      [⟨"src2.txt", "tgt"⟩] [] false true (by decide)⟩

/-! ### C7 — path-component classification during copy -/

/-- Modelled from the spec (§4.5): transform a relative path given each
component together with its true classification from the traversal
(`true` = directory component): file components are transformed exactly
when the file-rename toggle is enabled, directory components exactly when
the directory-rename toggle is enabled, and the transformed components are
re-joined. -/
def transform_path_spec (comps : List (String × Bool))
    (rules : List ReplacementRule) (rename_file rename_dir : Bool) : String :=
  comps.foldl (fun result comp =>
    let transformed :=
      if (comp.2 = false ∧ rename_file = true) ∨ (comp.2 = true ∧ rename_dir = true) then
        rules.foldl (fun t rule =>
          apply_replacement t rule.fromS rule.toS true) comp.1
      else comp.1
    pathJoin result transformed) ""

/-- C7 (code bug): for the relative path `hello/file.txt` — `hello` a
directory containing the file `file.txt` — with the file-rename toggle off
and the directory-rename toggle on, the code's `transform_path` probes
`path.join(component)`, i.e. `hello/file.txt/hello`, which is not a
directory on any filesystem in which `hello/file.txt` is a file, so the
directory component `hello` is classified as a file and is left
untransformed; the classification the claim (and spec §4.5) describes
transforms it to `world`.  The probe `fun q => q == "hello"` is the live
filesystem in which exactly `hello` is a directory. -/
theorem transform_path_misclassifies_dir_component :
    transform_path "hello/file.txt" [⟨"hello", "world"⟩] false true
        (fun q => q == "hello")
      = "hello/file.txt"
    ∧ transform_path_spec [("hello", true), ("file.txt", false)]
        [⟨"hello", "world"⟩] false true
      = "world/file.txt" := by
  constructor
  · decide
  · decide

end Mane
